import Mathlib

/-!
The ping protocol engine of `p2p2/protocols/ping.go`

A shallow embedding of the ping protocol: the envelope data model, the
`SendPing` operation, the two inbound handlers and the serialized event loop.

Conventions of the embedding.

* A method with receiver `p *pingProtocolImpl` is a function of the state `p`
  that returns an `Outcome`: the state after the call, the calls it made on its
  collaborators in program order (`Call`), and how it ended.
* Collaborators outside the file are parameters: the protobuf codec (`Proto`),
  and the swarm with its local node (`Swarm`).
* A `*pb.Metadata` is an `Option Metadata`; `none` is the nil pointer, and a
  field access through it is a panic (`Exit.panicked`).
* A `chan *pb.PingRespData` is an `Option Nat`: `none` is the nil channel,
  `some i` the channel with identity `i`.
* The three channels the loop selects over are represented by the stream of
  values the `select` receives (`Event`), one event per loop iteration.
* The goroutines started for one response run under a `Schedule`, which says when
  each of them reads the loop variable it shares with the others.
-/

namespace PingProtocol

/-- A Go byte slice; every element stands for one byte (a value below 256). -/
abbrev Bytes := List Nat

/-- A Go error value, identified by its message. -/
abbrev Error := String

/-- The routing key of ping requests: `const pingReq`. -/
def pingReq : String := "/ping/1.0/ping-req/"

/-- The routing key of ping responses: `const pingResp`. -/
def pingResp : String := "/ping/1.0/ping-resp/"

/-- Modelled from the spec: the message type `pb.Metadata` is declared outside this
file. Its fields are the envelope wire fields of the specification (protocol id,
correlation id, response flag, hex-encoded author signature); `ReqId` and
`AuthorSign` are the names the source uses. -/
structure Metadata where
  Protocol : String
  ReqId : Bytes
  IsResponse : Bool
  AuthorSign : String
deriving DecidableEq

/-- The request message `pb.PingReqData{metadata, msg}`: a metadata pointer and the
ping text. -/
structure PingReqData where
  Metadata : Option Metadata
  Ping : String
deriving DecidableEq

/-- The response message `pb.PingRespData{metadata, pingText}`: a metadata pointer
and the pong text. -/
structure PingRespData where
  Metadata : Option Metadata
  Pong : String
deriving DecidableEq

/-- The value `swarm.SendMessageReq{remoteNodeId, reqId, payload}`. -/
structure SendMessageReq where
  PeerId : String
  ReqId : Bytes
  Payload : Bytes
deriving DecidableEq

/-- An inbound `swarm.IncomingMessage`: `Payload()` and the id string of `Sender()`. -/
structure IncomingMessage where
  Payload : Bytes
  Sender : String
deriving DecidableEq

/-- A `chan *pb.PingRespData`: `none` is the nil channel. -/
abbrev Chan := Option Nat

/-- The steps of the protocol that are visible outside it, in program order: the
calls on the local node, the codec and the swarm, and the goroutines started.
`goSend c resp` is a goroutine started by `go func() { c <- resp }()` that finds the
value `c` in the loop variable when it runs and sends `resp` on it. -/
inductive Call where
  | NewProtocolMessageMetadata (protocol : String) (reqId : Bytes) (flag : Bool)
  | MarshalReq (data : PingReqData)
  | MarshalResp (data : PingRespData)
  | Sign (bin : Bytes)
  | SendMessage (req : SendMessageReq)
  | RegisterProtocolHandler (protocol : String)
  | goSend (c : Chan) (resp : PingRespData)
deriving DecidableEq

/-- The functions `proto.Marshal` and `proto.Unmarshal` at the two message types. -/
structure Proto where
  MarshalReq : PingReqData → Except Error Bytes
  MarshalResp : PingRespData → Except Error Bytes
  UnmarshalReq : Bytes → Except Error PingReqData
  UnmarshalResp : Bytes → Except Error PingRespData

/-- The collaborator `swarm.Swarm` together with its local node.

* `Sign` is `GetLocalNode().PrivateKey().Sign`.
* `SendMessage` is the transport hand-off; its result is the error of the
  specification's `Transport.Send(targetPeerId, correlationId, payloadBytes) -> error`
  (`none` when the transport accepted the message).
* `Verify bin signature sender` is the specification's
  `Signer.Verify(bytes, signature, publicKey) -> bool`, with the attached hex
  signature and the claimed sender. -/
structure Swarm where
  Sign : Bytes → Except Error Bytes
  SendMessage : SendMessageReq → Option Error
  Verify : Bytes → String → String → Bool

/-- Modelled from the spec: `NewProtocolMessageMetadata` is a method of the local node,
declared outside this file. The specification gives it as
`buildMetadata(protocolId, correlationId, isResponse) -> Metadata`, a pure
construction with the signature left empty. -/
def NewProtocolMessageMetadata (protocol : String) (reqId : Bytes) (flag : Bool) : Metadata :=
  ⟨protocol, reqId, flag, ""⟩

/-- The digits of Go's `encoding/hex`. -/
def hextable : List Char := "0123456789abcdef".toList

/-- Go's `hex.EncodeToString`: two lower-case digits per byte, high nibble first. -/
def hexEncodeToString (src : Bytes) : String :=
  String.mk (src.flatMap (fun v => [hextable.getD (v % 256 / 16) '0', hextable.getD (v % 16) '0']))

/-- The struct `pingProtocolImpl`: the swarm and the slice of registered callbacks. -/
structure pingProtocolImpl where
  swarm : Swarm
  callbacks : List Chan

/-- How a call ended: it returned, or it panicked on a nil pointer dereference. -/
inductive Exit where
  | returned
  | panicked
deriving DecidableEq

/-- The effect of one call on the protocol: the state after it, the collaborator
calls it made in order, and its result. -/
structure Outcome (α : Type) where
  state : pingProtocolImpl
  calls : List Call
  result : α

/-- The constructor `NewPingProtocol`: `callbacks` is `make([]chan *pb.PingRespData, 1)`,
a slice of length one holding the zero value of the channel type; the two routing
keys are then registered with the demuxer. -/
def NewPingProtocol (s : Swarm) : Outcome Exit :=
  ⟨⟨s, List.replicate 1 none⟩,
   [Call.RegisterProtocolHandler pingReq, Call.RegisterProtocolHandler pingResp],
   Exit.returned⟩

/-- The method `SendPing`: build the metadata and the message, marshal, sign, place
the hex-encoded signature, marshal again, hand the request to the swarm and
`return nil`. The result is the returned `error` (`none` for nil). -/
def SendPing (pb : Proto) (p : pingProtocolImpl) (msg : String) (reqId : Bytes)
    (remoteNodeId : String) : Outcome (Option Error) :=
  let metadata := NewProtocolMessageMetadata pingReq reqId false
  let data : PingReqData := ⟨some metadata, msg⟩
  let c1 := [Call.NewProtocolMessageMetadata pingReq reqId false, Call.MarshalReq data]
  match pb.MarshalReq data with
  | .error err => ⟨p, c1, some err⟩
  | .ok bin =>
    let c2 := c1 ++ [Call.Sign bin]
    match p.swarm.Sign bin with
    | .error err => ⟨p, c2, some err⟩
    | .ok sign =>
      let data : PingReqData :=
        ⟨some ⟨metadata.Protocol, metadata.ReqId, metadata.IsResponse, hexEncodeToString sign⟩,
          msg⟩
      let c3 := c2 ++ [Call.MarshalReq data]
      match pb.MarshalReq data with
      | .error err => ⟨p, c3, some err⟩
      | .ok payload =>
        let req : SendMessageReq := ⟨remoteNodeId, reqId, payload⟩
        ⟨p, c3 ++ [Call.SendMessage req], none⟩

/-- A schedule of the goroutines the handling of one response starts: entry `i` is
the number of further iterations the `range` loop has completed when goroutine `i`
reads the loop variable. An absent entry is 0: the goroutine reads the variable
before the loop moves on. -/
abbrev Schedule := List Nat

/-- A value received by the `select` of `processEvents`, tagged with the channel it
came from; an inbound response comes with the schedule of the goroutines its
handling starts. -/
inductive Event where
  | incomingRequests (r : IncomingMessage)
  | incomingResponses (r : IncomingMessage) (sched : Schedule)
  | callbacksRegReq (c : Chan)
deriving DecidableEq

/-- The method `RegisterCallback`: the callback is sent on `callbacksRegReq`; it is
the value a later iteration of the loop receives. -/
def RegisterCallback (callback : Chan) : Event :=
  Event.callbacksRegReq callback

/-- The method `handleIncomingRequest`: unmarshal, return on a decode error; read
`req.Ping` and `req.Metadata.ReqId` (a panic when `req.Metadata` is nil); build the
response, marshal, sign, place the signature, marshal again and hand the response to
the swarm, returning silently when a step fails. -/
def handleIncomingRequest (pb : Proto) (p : pingProtocolImpl) (msg : IncomingMessage) :
    Outcome Exit :=
  match pb.UnmarshalReq msg.Payload with
  | .error _ => ⟨p, [], Exit.returned⟩
  | .ok req =>
    let peer := msg.Sender
    let pingText := req.Ping
    match req.Metadata with
    | none => ⟨p, [], Exit.panicked⟩
    | some reqMetadata =>
      let metadata := NewProtocolMessageMetadata pingResp reqMetadata.ReqId false
      let respData : PingRespData := ⟨some metadata, pingText⟩
      let c1 := [Call.NewProtocolMessageMetadata pingResp reqMetadata.ReqId false,
        Call.MarshalResp respData]
      match pb.MarshalResp respData with
      | .error _ => ⟨p, c1, Exit.returned⟩
      | .ok bin =>
        let c2 := c1 ++ [Call.Sign bin]
        match p.swarm.Sign bin with
        | .error _ => ⟨p, c2, Exit.returned⟩
        | .ok sign =>
          let respData : PingRespData :=
            ⟨some ⟨metadata.Protocol, metadata.ReqId, metadata.IsResponse,
              hexEncodeToString sign⟩, pingText⟩
          let c3 := c2 ++ [Call.MarshalResp respData]
          match pb.MarshalResp respData with
          | .error _ => ⟨p, c3, Exit.returned⟩
          | .ok signedPayload =>
            let resp : SendMessageReq := ⟨peer, reqMetadata.ReqId, signedPayload⟩
            ⟨p, c3 ++ [Call.SendMessage resp], Exit.returned⟩

/-- The loop `for _, c := range p.callbacks { go func() { c <- resp }() }` over the
elements still to visit. The closures share the one loop variable `c`, so the
goroutine started in an iteration sends on the element `c` holds when the goroutine
runs: that iteration's element or, when the loop has moved on, a later one, at the
latest the last. -/
def notifyClients : List Chan → Schedule → PingRespData → List Call
  | [], _, _ => []
  | c :: rest, sched, resp =>
    Call.goSend ((c :: rest).getD (min (sched.headD 0) rest.length) none) resp
      :: notifyClients rest sched.tail resp

/-- The method `handleIncomingResponse`: unmarshal, return on a decode error; read
`resp.Metadata.ReqId` for the log line (a panic when `resp.Metadata` is nil); start
one sending goroutine per element of `p.callbacks`. -/
def handleIncomingResponse (pb : Proto) (p : pingProtocolImpl) (msg : IncomingMessage)
    (sched : Schedule) : Outcome Exit :=
  match pb.UnmarshalResp msg.Payload with
  | .error _ => ⟨p, [], Exit.returned⟩
  | .ok resp =>
    match resp.Metadata with
    | none => ⟨p, [], Exit.panicked⟩
    | some respMetadata =>
      let _reqId := hexEncodeToString respMetadata.ReqId
      ⟨p, notifyClients p.callbacks sched resp, Exit.returned⟩

/-- One iteration of the `select` in `processEvents`, for the value it received. -/
def processEvent (pb : Proto) (p : pingProtocolImpl) : Event → Outcome Exit
  | Event.incomingRequests r => handleIncomingRequest pb p r
  | Event.incomingResponses r sched => handleIncomingResponse pb p r sched
  | Event.callbacksRegReq c => ⟨⟨p.swarm, p.callbacks ++ [c]⟩, [], Exit.returned⟩

/-- The loop of `processEvents` over the values its `select` receives, in order. A
panic ends the loop. -/
def processEvents (pb : Proto) : pingProtocolImpl → List Event → Outcome Exit
  | p, [] => ⟨p, [], Exit.returned⟩
  | p, ev :: evs =>
    match processEvent pb p ev with
    | ⟨q, cs, Exit.panicked⟩ => ⟨q, cs, Exit.panicked⟩
    | ⟨q, cs, Exit.returned⟩ =>
      match processEvents pb q evs with
      | ⟨q2, cs2, e⟩ => ⟨q2, cs ++ cs2, e⟩

/-! ## Reading a trace -/

/-- The requests handed to the transport, in order. -/
def sentMessages (cs : List Call) : List SendMessageReq :=
  cs.filterMap (fun c => match c with
    | Call.SendMessage req => some req
    | _ => none)

/-- The byte strings handed to the signer, in order. -/
def signedBytes (cs : List Call) : List Bytes :=
  cs.filterMap (fun c => match c with
    | Call.Sign bin => some bin
    | _ => none)

/-- The request messages handed to the encoder, in order. -/
def marshalledReqs (cs : List Call) : List PingReqData :=
  cs.filterMap (fun c => match c with
    | Call.MarshalReq data => some data
    | _ => none)

/-- The response messages handed to the encoder, in order. -/
def marshalledResps (cs : List Call) : List PingRespData :=
  cs.filterMap (fun c => match c with
    | Call.MarshalResp data => some data
    | _ => none)

/-- The flags passed to `NewProtocolMessageMetadata`, in order. -/
def metadataFlags (cs : List Call) : List Bool :=
  cs.filterMap (fun c => match c with
    | Call.NewProtocolMessageMetadata _ _ flag => some flag
    | _ => none)

/-- The deliveries dispatched: the channel and the response of every goroutine
started, in order. -/
def dispatched (cs : List Call) : List (Chan × PingRespData) :=
  cs.filterMap (fun c => match c with
    | Call.goSend ch resp => some (ch, resp)
    | _ => none)

/-- The check the specification asks of an inbound request (section 4.1): the
attached signature is verified, for the claimed sender, over the message re-encoded
with the signature field cleared. A message without metadata carries no signature. -/
def verifiesReq (pb : Proto) (s : Swarm) (msg : IncomingMessage) (req : PingReqData) : Bool :=
  match req.Metadata with
  | none => false
  | some md =>
    match pb.MarshalReq ⟨some ⟨md.Protocol, md.ReqId, md.IsResponse, ""⟩, req.Ping⟩ with
    | .error _ => false
    | .ok bin => s.Verify bin md.AuthorSign msg.Sender

/-- The check the specification asks of an inbound response (section 4.1). -/
def verifiesResp (pb : Proto) (s : Swarm) (msg : IncomingMessage) (resp : PingRespData) :
    Bool :=
  match resp.Metadata with
  | none => false
  | some md =>
    match pb.MarshalResp ⟨some ⟨md.Protocol, md.ReqId, md.IsResponse, ""⟩, resp.Pong⟩ with
    | .error _ => false
    | .ok bin => s.Verify bin md.AuthorSign msg.Sender

/-! ## A concrete codec, signer and transport

A length-delimited wire format in the manner of protobuf (field 1 is the metadata,
field 2 the text, no bytes at all is the message with every field absent), a keyed
checksum as signature, and a transport that knows a fixed set of peers. They
instantiate the collaborators so that the model can be run. -/

/-- A length followed by that many bytes. -/
def putBytes (b : Bytes) : Bytes :=
  b.length :: b

/-- A string as its length followed by its character codes. -/
def putString (s : String) : Bytes :=
  putBytes (s.toList.map Char.toNat)

/-- Reads a length and that many bytes; `none` when the input is too short. -/
def getBytes : Bytes → Option (Bytes × Bytes)
  | [] => none
  | n :: rest => if n ≤ rest.length then some (rest.take n, rest.drop n) else none

/-- Reads a string written by `putString`. -/
def getString (b : Bytes) : Option (String × Bytes) :=
  match getBytes b with
  | none => none
  | some (x, rest) => some (String.mk (x.map Char.ofNat), rest)

/-- The four metadata fields in order. -/
def putMetadata (md : Metadata) : Bytes :=
  putString md.Protocol ++ putBytes md.ReqId ++ [if md.IsResponse then 1 else 0]
    ++ putString md.AuthorSign

/-- Reads the four metadata fields. -/
def getMetadata (b : Bytes) : Option (Metadata × Bytes) :=
  match getString b with
  | none => none
  | some (protocol, r1) =>
    match getBytes r1 with
    | none => none
    | some (_, []) => none
    | some (reqId, flag :: r2) =>
      match getString r2 with
      | none => none
      | some (sign, r3) => some (⟨protocol, reqId, flag != 0, sign⟩, r3)

/-- The wire form of a message: the metadata when present, the text when non-empty. -/
def marshal (md : Option Metadata) (text : String) : Bytes :=
  (match md with
    | none => []
    | some m => 1 :: putMetadata m)
  ++ (if text = "" then [] else 2 :: putString text)

/-- Reads the text field at the end of a message. -/
def unmarshalText : Bytes → Option String
  | [] => some ""
  | 2 :: r =>
    match getString r with
    | some (s, []) => some s
    | _ => none
  | _ => none

/-- Parses a message; truncated or mistagged input is an error. -/
def unmarshal : Bytes → Except Error (Option Metadata × String)
  | 1 :: r =>
    match getMetadata r with
    | none => Except.error "unexpected EOF"
    | some (md, rest) =>
      match unmarshalText rest with
      | none => Except.error "unexpected EOF"
      | some s => Except.ok (some md, s)
  | b =>
    match unmarshalText b with
    | none => Except.error "unexpected EOF"
    | some s => Except.ok (none, s)

/-- The codec at the two message types. -/
def wireProto : Proto where
  MarshalReq := fun d => Except.ok (marshal d.Metadata d.Ping)
  MarshalResp := fun d => Except.ok (marshal d.Metadata d.Pong)
  UnmarshalReq := fun b => (unmarshal b).map (fun x => ⟨x.1, x.2⟩)
  UnmarshalResp := fun b => (unmarshal b).map (fun x => ⟨x.1, x.2⟩)

/-- A one-byte keyed checksum. -/
def checksum (key : Nat) (bin : Bytes) : Bytes :=
  [(bin.sum + key) % 256]

/-- The key of a node: the length of its id. -/
def keyOf (node : String) : Nat :=
  node.length

/-- A swarm whose local node is `self` and whose transport reaches `peers` only. -/
def testSwarm (self : String) (peers : List String) : Swarm where
  Sign := fun bin => Except.ok (checksum (keyOf self) bin)
  SendMessage := fun req => if req.PeerId ∈ peers then none else some "unknown peer"
  Verify := fun bin sign sender => decide (sign = hexEncodeToString (checksum (keyOf sender) bin))

/-- A swarm whose local node has no usable key: signing fails. -/
def keylessSwarm : Swarm where
  Sign := fun _ => Except.error "no private key"
  SendMessage := fun _ => none
  Verify := fun _ _ _ => false

/-- A codec that rejects every message it is asked to encode. -/
def rejectingProto : Proto where
  MarshalReq := fun _ => Except.error "proto: required field not set"
  MarshalResp := fun _ => Except.error "proto: required field not set"
  UnmarshalReq := wireProto.UnmarshalReq
  UnmarshalResp := wireProto.UnmarshalResp

/-- The engine of node A as `NewPingProtocol` creates it; its transport reaches node B. -/
def nodeA : pingProtocolImpl :=
  (NewPingProtocol (testSwarm "NodeA" ["NodeB"])).state

/-- The engine of node B as `NewPingProtocol` creates it; its transport reaches node A. -/
def nodeB : pingProtocolImpl :=
  (NewPingProtocol (testSwarm "NodeB" ["NodeA"])).state

/-- The signed request node A sends for `SendPing("hello", 0x01, "NodeB")`. -/
def helloRequest : PingReqData :=
  ⟨some ⟨pingReq, [1], false, "52"⟩, "hello"⟩

/-- The signed response node B builds for `helloRequest`. -/
def helloResponse : PingRespData :=
  ⟨some ⟨pingResp, [1], false, "c5"⟩, "hello"⟩

/-- The request `helloRequest` with a signature that is not node A's. -/
def forgedRequest : PingReqData :=
  ⟨some ⟨pingReq, [1], false, "00"⟩, "hello"⟩

/-- The response `helloResponse` with a signature that is not node B's. -/
def forgedResponse : PingRespData :=
  ⟨some ⟨pingResp, [1], false, "00"⟩, "hello"⟩

/-- The wire form of a request. -/
def wireReq (d : PingReqData) : Bytes :=
  marshal d.Metadata d.Ping

/-- The wire form of a response. -/
def wireResp (d : PingRespData) : Bytes :=
  marshal d.Metadata d.Pong

/-! ## The traces of the three operations -/

/-- The whole trace of `SendPing` when both encodings and the signing succeed. -/
theorem SendPing_ok (pb : Proto) (p : pingProtocolImpl) (msg : String) (reqId : Bytes)
    (remoteNodeId : String) (bin sign payload : Bytes)
    (hbin : pb.MarshalReq ⟨some ⟨pingReq, reqId, false, ""⟩, msg⟩ = Except.ok bin)
    (hsign : p.swarm.Sign bin = Except.ok sign)
    (hpayload : pb.MarshalReq ⟨some ⟨pingReq, reqId, false, hexEncodeToString sign⟩, msg⟩
      = Except.ok payload) :
    SendPing pb p msg reqId remoteNodeId =
      ⟨p, [Call.NewProtocolMessageMetadata pingReq reqId false,
           Call.MarshalReq ⟨some ⟨pingReq, reqId, false, ""⟩, msg⟩,
           Call.Sign bin,
           Call.MarshalReq ⟨some ⟨pingReq, reqId, false, hexEncodeToString sign⟩, msg⟩,
           Call.SendMessage ⟨remoteNodeId, reqId, payload⟩], none⟩ := by
  simp [SendPing, NewProtocolMessageMetadata, hbin, hsign, hpayload]

/-- The whole trace of `handleIncomingRequest` for a decoded request that carries
metadata, when both encodings and the signing succeed. -/
theorem handleIncomingRequest_ok (pb : Proto) (p : pingProtocolImpl) (msg : IncomingMessage)
    (req : PingReqData) (md : Metadata) (bin sign signedPayload : Bytes)
    (hdec : pb.UnmarshalReq msg.Payload = Except.ok req)
    (hmd : req.Metadata = some md)
    (hbin : pb.MarshalResp ⟨some ⟨pingResp, md.ReqId, false, ""⟩, req.Ping⟩ = Except.ok bin)
    (hsign : p.swarm.Sign bin = Except.ok sign)
    (hpayload : pb.MarshalResp ⟨some ⟨pingResp, md.ReqId, false, hexEncodeToString sign⟩,
      req.Ping⟩ = Except.ok signedPayload) :
    handleIncomingRequest pb p msg =
      ⟨p, [Call.NewProtocolMessageMetadata pingResp md.ReqId false,
           Call.MarshalResp ⟨some ⟨pingResp, md.ReqId, false, ""⟩, req.Ping⟩,
           Call.Sign bin,
           Call.MarshalResp ⟨some ⟨pingResp, md.ReqId, false, hexEncodeToString sign⟩, req.Ping⟩,
           Call.SendMessage ⟨msg.Sender, md.ReqId, signedPayload⟩], Exit.returned⟩ := by
  simp [handleIncomingRequest, NewProtocolMessageMetadata, hdec, hmd, hbin, hsign, hpayload]

/-- The whole trace of `handleIncomingResponse` for a decoded response that carries
metadata: one goroutine per element of `callbacks`. -/
theorem handleIncomingResponse_ok (pb : Proto) (p : pingProtocolImpl) (msg : IncomingMessage)
    (sched : Schedule) (resp : PingRespData) (md : Metadata)
    (hdec : pb.UnmarshalResp msg.Payload = Except.ok resp)
    (hmd : resp.Metadata = some md) :
    handleIncomingResponse pb p msg sched =
      ⟨p, notifyClients p.callbacks sched resp, Exit.returned⟩ := by
  simp [handleIncomingResponse, hdec, hmd]

/-- When every goroutine reads the loop variable before the loop moves on, goroutine
`i` sends on element `i`. -/
theorem notifyClients_in_order (cs : List Chan) (resp : PingRespData) :
    notifyClients cs [] resp = cs.map (fun c => Call.goSend c resp) := by
  induction cs with
  | nil => rfl
  | cons c cs ih => simp [notifyClients, ih]

/-- Under every schedule one goroutine is started per element, each with the
response. -/
theorem notifyClients_responses (cs : List Chan) (sched : Schedule) (resp : PingRespData) :
    (dispatched (notifyClients cs sched resp)).map Prod.snd = cs.map (fun _ => resp) := by
  induction cs generalizing sched with
  | nil => rfl
  | cons c cs ih =>
    have h := ih sched.tail
    simp only [dispatched] at h
    simp [notifyClients, dispatched, h]

/-- Under every schedule every goroutine sends on an element of the collection. -/
theorem notifyClients_channels (cs : List Chan) (sched : Schedule) (resp : PingRespData) :
    ∀ d ∈ dispatched (notifyClients cs sched resp), d.1 ∈ cs := by
  induction cs generalizing sched with
  | nil => intro d hd; simp [notifyClients, dispatched] at hd
  | cons c cs ih =>
    intro d hd
    have h := ih sched.tail
    simp only [dispatched] at h
    simp only [notifyClients, dispatched, List.filterMap_cons, List.mem_cons] at hd
    rcases hd with hd | hd
    · subst hd
      have hlt : min (sched.headD 0) cs.length < (c :: cs).length := by
        simp only [List.length_cons]
        omega
      rw [List.getD_eq_getElem _ _ hlt]
      exact List.getElem_mem _
    · exact List.mem_cons_of_mem _ (h d hd)

/-- Under every schedule the last goroutine sends on the last element. -/
theorem notifyClients_last (cs : List Chan) (sched : Schedule) (resp : PingRespData) :
    (dispatched (notifyClients cs sched resp)).getLast? = cs.getLast?.map (fun c => (c, resp)) := by
  induction cs generalizing sched with
  | nil => rfl
  | cons c cs ih =>
    cases cs with
    | nil => simp [notifyClients, dispatched]
    | cons c2 cs =>
      have h := ih sched.tail
      rw [notifyClients] at h
      rw [notifyClients, notifyClients]
      simp only [dispatched, List.filterMap_cons] at h ⊢
      rw [List.getLast?_cons_cons, h, List.getLast?_cons_cons]

/-- Reading the deliveries off a list of goroutine starts. -/
theorem dispatched_goSend (cs : List Chan) (resp : PingRespData) :
    dispatched (cs.map (fun c => Call.goSend c resp)) = cs.map (fun c => (c, resp)) := by
  induction cs with
  | nil => rfl
  | cons c cs ih =>
    simp only [dispatched, List.map_cons, List.filterMap_cons] at ih ⊢
    rw [ih]

/-- Node A's request decodes at node B. -/
theorem helloRequest_decodes :
    wireProto.UnmarshalReq (wireReq helloRequest) = Except.ok helloRequest := by
  rfl

/-- Node B's response decodes at node A. -/
theorem helloResponse_decodes :
    wireProto.UnmarshalResp (wireResp helloResponse) = Except.ok helloResponse := by
  rfl

/-- The signatures of the two genuine messages verify; those of the forged ones do
not. -/
theorem hello_signatures_verify :
    verifiesReq wireProto nodeB.swarm ⟨wireReq helloRequest, "NodeA"⟩ helloRequest = true
      ∧ verifiesResp wireProto nodeA.swarm ⟨wireResp helloResponse, "NodeB"⟩ helloResponse = true
      ∧ verifiesReq wireProto nodeB.swarm ⟨wireReq forgedRequest, "NodeA"⟩ forgedRequest = false
      ∧ verifiesResp wireProto nodeA.swarm ⟨wireResp forgedResponse, "NodeB"⟩ forgedResponse
        = false := by
  decide

/-- The handler of requests returns the state it was given. -/
theorem handleIncomingRequest_state (pb : Proto) (p : pingProtocolImpl) (msg : IncomingMessage) :
    (handleIncomingRequest pb p msg).state = p := by
  simp only [handleIncomingRequest]
  repeat' split
  all_goals rfl

/-- The handler of responses returns the state it was given. -/
theorem handleIncomingResponse_state (pb : Proto) (p : pingProtocolImpl)
    (msg : IncomingMessage) (sched : Schedule) :
    (handleIncomingResponse pb p msg sched).state = p := by
  simp only [handleIncomingResponse]
  repeat' split
  all_goals rfl

/-- The operation `SendPing` returns the state it was given. -/
theorem SendPing_state (pb : Proto) (p : pingProtocolImpl) (msg : String) (reqId : Bytes)
    (remoteNodeId : String) :
    (SendPing pb p msg reqId remoteNodeId).state = p := by
  simp only [SendPing]
  repeat' split
  all_goals rfl

/-- One iteration of the loop keeps `callbacks` or appends the registered callback. -/
theorem processEvent_callbacks (pb : Proto) (p : pingProtocolImpl) (ev : Event) :
    (processEvent pb p ev).state.callbacks =
      match ev with
      | Event.callbacksRegReq c => p.callbacks ++ [c]
      | _ => p.callbacks := by
  cases ev with
  | incomingRequests r => simp [processEvent, handleIncomingRequest_state]
  | incomingResponses r sched => simp [processEvent, handleIncomingResponse_state]
  | callbacksRegReq c => rfl

/-- The loop unfolded at its first event. -/
theorem processEvents_cons (pb : Proto) (p : pingProtocolImpl) (ev : Event) (evs : List Event) :
    processEvents pb p (ev :: evs) =
      if (processEvent pb p ev).result = Exit.panicked then
        ⟨(processEvent pb p ev).state, (processEvent pb p ev).calls, Exit.panicked⟩
      else
        ⟨(processEvents pb (processEvent pb p ev).state evs).state,
          (processEvent pb p ev).calls ++ (processEvents pb (processEvent pb p ev).state evs).calls,
          (processEvents pb (processEvent pb p ev).state evs).result⟩ := by
  rw [processEvents]
  rcases h : processEvent pb p ev with ⟨q, cs, e⟩
  cases e <;> simp

/-- A registration event followed by further events: the loop goes on with the
callback appended. -/
theorem processEvents_register (pb : Proto) (p : pingProtocolImpl) (c : Chan)
    (evs : List Event) :
    processEvents pb p (RegisterCallback c :: evs)
      = processEvents pb ⟨p.swarm, p.callbacks ++ [c]⟩ evs := by
  rw [processEvents_cons]
  simp [RegisterCallback, processEvent]

/-- Fan-out in general, when every goroutine reads the loop variable before the
loop moves on: after the registrations of `cs`, a response that decodes to a message
with metadata is dispatched once to every element of `callbacks` as it was before the
registrations, then once to every element of `cs`. -/
theorem processEvents_fan_out (pb : Proto) (msg : IncomingMessage) (resp : PingRespData)
    (md : Metadata) (hdec : pb.UnmarshalResp msg.Payload = Except.ok resp)
    (hmd : resp.Metadata = some md) (cs : List Chan) (p : pingProtocolImpl) :
    dispatched (processEvents pb p
        (cs.map RegisterCallback ++ [Event.incomingResponses msg []])).calls
      = (p.callbacks ++ cs).map (fun c => (c, resp)) := by
  induction cs generalizing p with
  | nil =>
    rw [List.map_nil, List.nil_append, processEvents_cons]
    simp only [processEvent, handleIncomingResponse_ok pb p msg [] resp md hdec hmd]
    simp [processEvents, notifyClients_in_order, dispatched_goSend]
  | cons c cs ih =>
    rw [List.map_cons, List.cons_append, processEvents_register, ih]
    simp

/-- Fan-out in general, under every schedule: after the registrations of `cs`, a
response that decodes to a message with metadata starts one goroutine per element of
`callbacks ++ cs`, each with the response and each sending on one of those elements. -/
theorem processEvents_fan_out_count (pb : Proto) (msg : IncomingMessage) (resp : PingRespData)
    (md : Metadata) (hdec : pb.UnmarshalResp msg.Payload = Except.ok resp)
    (hmd : resp.Metadata = some md) (sched : Schedule) (cs : List Chan) (p : pingProtocolImpl) :
    (dispatched (processEvents pb p
        (cs.map RegisterCallback ++ [Event.incomingResponses msg sched])).calls).map Prod.snd
      = (p.callbacks ++ cs).map (fun _ => resp) := by
  induction cs generalizing p with
  | nil =>
    rw [List.map_nil, List.nil_append, processEvents_cons]
    simp only [processEvent, handleIncomingResponse_ok pb p msg sched resp md hdec hmd]
    simp [processEvents, notifyClients_responses]
  | cons c cs ih =>
    rw [List.map_cons, List.cons_append, processEvents_register, ih]
    simp

/-! ## Correlation id and response flag -/

/-- C1 (correlation fidelity): for every inbound request that decodes to a message
with metadata, when both encodings and the signing succeed, the one request handed
to the transport has the request's `Metadata.ReqId` as its request id and the
signed response as its payload, and every response envelope the handler encodes
carries that same `ReqId` in its metadata. -/
theorem handleIncomingRequest_correlation_fidelity (pb : Proto) (p : pingProtocolImpl)
    (msg : IncomingMessage) (req : PingReqData) (md : Metadata) (bin sign signedPayload : Bytes)
    (hdec : pb.UnmarshalReq msg.Payload = Except.ok req)
    (hmd : req.Metadata = some md)
    (hbin : pb.MarshalResp ⟨some ⟨pingResp, md.ReqId, false, ""⟩, req.Ping⟩ = Except.ok bin)
    (hsign : p.swarm.Sign bin = Except.ok sign)
    (hpayload : pb.MarshalResp ⟨some ⟨pingResp, md.ReqId, false, hexEncodeToString sign⟩,
      req.Ping⟩ = Except.ok signedPayload) :
    sentMessages (handleIncomingRequest pb p msg).calls
        = [⟨msg.Sender, md.ReqId, signedPayload⟩]
      ∧ (marshalledResps (handleIncomingRequest pb p msg).calls).map
          (fun d => d.Metadata.map Metadata.ReqId) = [some md.ReqId, some md.ReqId]
      ∧ (marshalledResps (handleIncomingRequest pb p msg).calls).getLast?.map pb.MarshalResp
          = some (Except.ok signedPayload) := by
  rw [handleIncomingRequest_ok pb p msg req md bin sign signedPayload hdec hmd hbin hsign hpayload]
  simp [sentMessages, marshalledResps, hpayload]

/-- C1 at node B for node A's request: the response goes to node A with
correlation id `0x01`. -/
theorem handleIncomingRequest_correlation_fidelity_witness :
    sentMessages (handleIncomingRequest wireProto nodeB ⟨wireReq helloRequest, "NodeA"⟩).calls
        = [⟨"NodeA", [1], wireResp helloResponse⟩]
      ∧ (marshalledResps
          (handleIncomingRequest wireProto nodeB ⟨wireReq helloRequest, "NodeA"⟩).calls).map
          (fun d => d.Metadata.map Metadata.ReqId) = [some [1], some [1]] :=
  have h := handleIncomingRequest_correlation_fidelity wireProto nodeB
    ⟨wireReq helloRequest, "NodeA"⟩ helloRequest ⟨pingReq, [1], false, "52"⟩
    (wireResp ⟨some ⟨pingResp, [1], false, ""⟩, "hello"⟩) [197] (wireResp helloResponse)
    rfl rfl rfl rfl rfl
  ⟨h.1, h.2.1⟩

/-- C2 as stated fails: at node B, for node A's request, the flag passed to
`NewProtocolMessageMetadata` is `false`, and both response envelopes encoded carry
`IsResponse = false`. -/
theorem response_flag_counterexample :
    metadataFlags (handleIncomingRequest wireProto nodeB ⟨wireReq helloRequest, "NodeA"⟩).calls
        = [false]
      ∧ (marshalledResps
          (handleIncomingRequest wireProto nodeB ⟨wireReq helloRequest, "NodeA"⟩).calls).map
          (fun d => d.Metadata.map Metadata.IsResponse) = [some false, some false] := by
  decide

/-- C2 (amended): for every inbound request that decodes to a message with metadata,
`handleIncomingRequest` passes the flag `false` to `NewProtocolMessageMetadata` and
every response envelope it encodes has `IsResponse = false`; `SendPing` does the same
for the request. The two differ in the protocol id. -/
theorem response_and_request_flag_false (pb : Proto) (p : pingProtocolImpl)
    (msg : IncomingMessage) (req : PingReqData) (md : Metadata)
    (hdec : pb.UnmarshalReq msg.Payload = Except.ok req)
    (hmd : req.Metadata = some md)
    (q : pingProtocolImpl) (text : String) (reqId : Bytes) (remoteNodeId : String) :
    (handleIncomingRequest pb p msg).calls.head?
        = some (Call.NewProtocolMessageMetadata pingResp md.ReqId false)
      ∧ metadataFlags (handleIncomingRequest pb p msg).calls = [false]
      ∧ (∀ d ∈ marshalledResps (handleIncomingRequest pb p msg).calls,
          d.Metadata.map Metadata.IsResponse = some false)
      ∧ (SendPing pb q text reqId remoteNodeId).calls.head?
        = some (Call.NewProtocolMessageMetadata pingReq reqId false)
      ∧ metadataFlags (SendPing pb q text reqId remoteNodeId).calls = [false]
      ∧ (∀ d ∈ marshalledReqs (SendPing pb q text reqId remoteNodeId).calls,
          d.Metadata.map Metadata.IsResponse = some false) := by
  refine ⟨?_, ?_, ?_, ?_, ?_, ?_⟩
  · simp only [handleIncomingRequest, hdec, hmd]
    repeat' split
    all_goals simp
  · simp only [handleIncomingRequest, hdec, hmd]
    repeat' split
    all_goals simp [metadataFlags]
  · simp only [handleIncomingRequest, hdec, hmd]
    repeat' split
    all_goals simp [marshalledResps, NewProtocolMessageMetadata]
  · simp only [SendPing]
    repeat' split
    all_goals simp
  · simp only [SendPing]
    repeat' split
    all_goals simp [metadataFlags]
  · simp only [SendPing]
    repeat' split
    all_goals simp [marshalledReqs, NewProtocolMessageMetadata]

/-- C2 (amended) at node B for node A's request, and at node A for its own ping. -/
theorem response_and_request_flag_false_witness :
    metadataFlags (handleIncomingRequest wireProto nodeB ⟨wireReq helloRequest, "NodeA"⟩).calls
        = [false]
      ∧ metadataFlags (SendPing wireProto nodeA "hello" [1] "NodeB").calls = [false] :=
  have h := response_and_request_flag_false wireProto nodeB ⟨wireReq helloRequest, "NodeA"⟩
    helloRequest ⟨pingReq, [1], false, "52"⟩ rfl rfl nodeA "hello" [1] "NodeB"
  ⟨h.2.1, h.2.2.2.2.1⟩

/-! ## The result of `SendPing` -/

/-- C3 as stated fails: node A's transport does not know `NodeC` and answers the
hand-off with the error `unknown peer`, yet `SendPing` returns nil. -/
theorem SendPing_transport_error_counterexample :
    sentMessages (SendPing wireProto nodeA "hello" [1] "NodeC").calls
        = [⟨"NodeC", [1], wireReq helloRequest⟩]
      ∧ nodeA.swarm.SendMessage ⟨"NodeC", [1], wireReq helloRequest⟩ = some "unknown peer"
      ∧ (SendPing wireProto nodeA "hello" [1] "NodeC").result = none := by
  decide

/-- C3 (amended): the result of `SendPing` in every case. When both encodings and the
signing succeed it hands exactly one request to the transport and returns nil. When
the first encoding, the signing or the second encoding fails with an error, it
returns exactly that error and hands nothing to the transport. So an error it
returns is the encoder's or the signer's, and it returns nil exactly when it handed
a request to the transport. None of this depends on the transport: with any other
transport in place of the swarm's, the trace and the result are the same. -/
theorem SendPing_result (pb : Proto) (p : pingProtocolImpl) (msg : String)
    (reqId : Bytes) (remoteNodeId : String) :
    (∀ bin sign payload : Bytes,
      pb.MarshalReq ⟨some ⟨pingReq, reqId, false, ""⟩, msg⟩ = Except.ok bin →
      p.swarm.Sign bin = Except.ok sign →
      pb.MarshalReq ⟨some ⟨pingReq, reqId, false, hexEncodeToString sign⟩, msg⟩
        = Except.ok payload →
      (SendPing pb p msg reqId remoteNodeId).result = none
        ∧ sentMessages (SendPing pb p msg reqId remoteNodeId).calls
          = [⟨remoteNodeId, reqId, payload⟩])
    ∧ (∀ err : Error,
      pb.MarshalReq ⟨some ⟨pingReq, reqId, false, ""⟩, msg⟩ = Except.error err →
      (SendPing pb p msg reqId remoteNodeId).result = some err
        ∧ sentMessages (SendPing pb p msg reqId remoteNodeId).calls = [])
    ∧ (∀ (bin : Bytes) (err : Error),
      pb.MarshalReq ⟨some ⟨pingReq, reqId, false, ""⟩, msg⟩ = Except.ok bin →
      p.swarm.Sign bin = Except.error err →
      (SendPing pb p msg reqId remoteNodeId).result = some err
        ∧ sentMessages (SendPing pb p msg reqId remoteNodeId).calls = [])
    ∧ (∀ (bin sign : Bytes) (err : Error),
      pb.MarshalReq ⟨some ⟨pingReq, reqId, false, ""⟩, msg⟩ = Except.ok bin →
      p.swarm.Sign bin = Except.ok sign →
      pb.MarshalReq ⟨some ⟨pingReq, reqId, false, hexEncodeToString sign⟩, msg⟩
        = Except.error err →
      (SendPing pb p msg reqId remoteNodeId).result = some err
        ∧ sentMessages (SendPing pb p msg reqId remoteNodeId).calls = [])
    ∧ (∀ err : Error, (SendPing pb p msg reqId remoteNodeId).result = some err →
      pb.MarshalReq ⟨some ⟨pingReq, reqId, false, ""⟩, msg⟩ = Except.error err
        ∨ (∃ bin : Bytes,
          pb.MarshalReq ⟨some ⟨pingReq, reqId, false, ""⟩, msg⟩ = Except.ok bin
            ∧ (p.swarm.Sign bin = Except.error err
              ∨ ∃ sign : Bytes, p.swarm.Sign bin = Except.ok sign
                ∧ pb.MarshalReq ⟨some ⟨pingReq, reqId, false, hexEncodeToString sign⟩, msg⟩
                  = Except.error err)))
    ∧ ((SendPing pb p msg reqId remoteNodeId).result = none
        ↔ (sentMessages (SendPing pb p msg reqId remoteNodeId).calls).length = 1)
    ∧ (∀ transport : SendMessageReq → Option Error,
      (SendPing pb ⟨⟨p.swarm.Sign, transport, p.swarm.Verify⟩, p.callbacks⟩ msg reqId
          remoteNodeId).result = (SendPing pb p msg reqId remoteNodeId).result
        ∧ (SendPing pb ⟨⟨p.swarm.Sign, transport, p.swarm.Verify⟩, p.callbacks⟩ msg reqId
          remoteNodeId).calls = (SendPing pb p msg reqId remoteNodeId).calls) := by
  refine ⟨?_, ?_, ?_, ?_, ?_, ?_, ?_⟩
  · intro bin sign payload hbin hsign hpayload
    rw [SendPing_ok pb p msg reqId remoteNodeId bin sign payload hbin hsign hpayload]
    simp [sentMessages]
  · intro err hbin
    simp [SendPing, NewProtocolMessageMetadata, hbin, sentMessages]
  · intro bin err hbin hsign
    simp [SendPing, NewProtocolMessageMetadata, hbin, hsign, sentMessages]
  · intro bin sign err hbin hsign hpayload
    simp [SendPing, NewProtocolMessageMetadata, hbin, hsign, hpayload, sentMessages]
  · intro err
    cases hbin : pb.MarshalReq ⟨some ⟨pingReq, reqId, false, ""⟩, msg⟩ with
    | error e1 =>
      simp [SendPing, NewProtocolMessageMetadata, hbin]
    | ok bin =>
      cases hsign : p.swarm.Sign bin with
      | error e2 =>
        simp [SendPing, NewProtocolMessageMetadata, hbin, hsign]
      | ok sign =>
        cases hpayload : pb.MarshalReq
            ⟨some ⟨pingReq, reqId, false, hexEncodeToString sign⟩, msg⟩ with
        | error e3 =>
          simp [SendPing, NewProtocolMessageMetadata, hbin, hsign, hpayload]
        | ok payload =>
          simp [SendPing, NewProtocolMessageMetadata, hbin, hsign, hpayload]
  · cases hbin : pb.MarshalReq ⟨some ⟨pingReq, reqId, false, ""⟩, msg⟩ with
    | error e1 =>
      simp [SendPing, NewProtocolMessageMetadata, hbin, sentMessages]
    | ok bin =>
      cases hsign : p.swarm.Sign bin with
      | error e2 =>
        simp [SendPing, NewProtocolMessageMetadata, hbin, hsign, sentMessages]
      | ok sign =>
        cases hpayload : pb.MarshalReq
            ⟨some ⟨pingReq, reqId, false, hexEncodeToString sign⟩, msg⟩ with
        | error e3 =>
          simp [SendPing, NewProtocolMessageMetadata, hbin, hsign, hpayload, sentMessages]
        | ok payload =>
          simp [SendPing, NewProtocolMessageMetadata, hbin, hsign, hpayload, sentMessages]
  · intro transport
    cases hbin : pb.MarshalReq ⟨some ⟨pingReq, reqId, false, ""⟩, msg⟩ with
    | error e1 =>
      simp [SendPing, NewProtocolMessageMetadata, hbin]
    | ok bin =>
      cases hsign : p.swarm.Sign bin with
      | error e2 =>
        simp [SendPing, NewProtocolMessageMetadata, hbin, hsign]
      | ok sign =>
        cases hpayload : pb.MarshalReq
            ⟨some ⟨pingReq, reqId, false, hexEncodeToString sign⟩, msg⟩ with
        | error e3 =>
          simp [SendPing, NewProtocolMessageMetadata, hbin, hsign, hpayload]
        | ok payload =>
          simp [SendPing, NewProtocolMessageMetadata, hbin, hsign, hpayload]

/-- C3 (amended) in its four cases: node A pinging the unknown peer `NodeC` returns
nil after the hand-off; with a codec that rejects the message, `SendPing` returns the
codec's error; with a local node that cannot sign, it returns the signer's error; and
an error returned by node A's `SendPing` can only be one of those. -/
theorem SendPing_result_witness :
    ((SendPing wireProto nodeA "hello" [1] "NodeC").result = none
        ∧ sentMessages (SendPing wireProto nodeA "hello" [1] "NodeC").calls
          = [⟨"NodeC", [1], wireReq helloRequest⟩])
      ∧ ((SendPing rejectingProto nodeA "hello" [1] "NodeB").result
          = some "proto: required field not set"
        ∧ sentMessages (SendPing rejectingProto nodeA "hello" [1] "NodeB").calls = [])
      ∧ ((SendPing wireProto ⟨keylessSwarm, [none]⟩ "hello" [1] "NodeB").result
          = some "no private key"
        ∧ sentMessages (SendPing wireProto ⟨keylessSwarm, [none]⟩ "hello" [1] "NodeB").calls
          = [])
      ∧ ((SendPing wireProto nodeA "hello" [1] "NodeC").result = none
        ↔ (sentMessages (SendPing wireProto nodeA "hello" [1] "NodeC").calls).length = 1) :=
  ⟨(SendPing_result wireProto nodeA "hello" [1] "NodeC").1
      (wireReq ⟨some ⟨pingReq, [1], false, ""⟩, "hello"⟩) [82] (wireReq helloRequest)
      rfl rfl rfl,
   (SendPing_result rejectingProto nodeA "hello" [1] "NodeB").2.1
      "proto: required field not set" rfl,
   (SendPing_result wireProto ⟨keylessSwarm, [none]⟩ "hello" [1] "NodeB").2.2.1
      (wireReq ⟨some ⟨pingReq, [1], false, ""⟩, "hello"⟩) "no private key" rfl rfl,
   (SendPing_result wireProto nodeA "hello" [1] "NodeC").2.2.2.2.2.1⟩

/-! ## The signing contract -/

/-- C4 (signing contract): in `SendPing` and in `handleIncomingRequest`, when both
encodings and the signing succeed, the trace is: encode the envelope whose signature
field is empty, sign exactly those bytes, encode the envelope that differs only in
the signature field, now the hex encoding of the signature returned, and hand
exactly those bytes to the transport. Protocol id, correlation id, flag and text are
the same in the two encoded envelopes. -/
theorem signing_contract (pb : Proto) (p : pingProtocolImpl) :
    (∀ (msg : String) (reqId : Bytes) (remoteNodeId : String) (bin sign payload : Bytes),
      pb.MarshalReq ⟨some ⟨pingReq, reqId, false, ""⟩, msg⟩ = Except.ok bin →
      p.swarm.Sign bin = Except.ok sign →
      pb.MarshalReq ⟨some ⟨pingReq, reqId, false, hexEncodeToString sign⟩, msg⟩
        = Except.ok payload →
      (SendPing pb p msg reqId remoteNodeId).calls =
        [Call.NewProtocolMessageMetadata pingReq reqId false,
         Call.MarshalReq ⟨some ⟨pingReq, reqId, false, ""⟩, msg⟩,
         Call.Sign bin,
         Call.MarshalReq ⟨some ⟨pingReq, reqId, false, hexEncodeToString sign⟩, msg⟩,
         Call.SendMessage ⟨remoteNodeId, reqId, payload⟩])
    ∧ (∀ (msg : IncomingMessage) (req : PingReqData) (md : Metadata)
        (bin sign signedPayload : Bytes),
      pb.UnmarshalReq msg.Payload = Except.ok req →
      req.Metadata = some md →
      pb.MarshalResp ⟨some ⟨pingResp, md.ReqId, false, ""⟩, req.Ping⟩ = Except.ok bin →
      p.swarm.Sign bin = Except.ok sign →
      pb.MarshalResp ⟨some ⟨pingResp, md.ReqId, false, hexEncodeToString sign⟩, req.Ping⟩
        = Except.ok signedPayload →
      (handleIncomingRequest pb p msg).calls =
        [Call.NewProtocolMessageMetadata pingResp md.ReqId false,
         Call.MarshalResp ⟨some ⟨pingResp, md.ReqId, false, ""⟩, req.Ping⟩,
         Call.Sign bin,
         Call.MarshalResp ⟨some ⟨pingResp, md.ReqId, false, hexEncodeToString sign⟩, req.Ping⟩,
         Call.SendMessage ⟨msg.Sender, md.ReqId, signedPayload⟩]) := by
  constructor
  · intro msg reqId remoteNodeId bin sign payload hbin hsign hpayload
    rw [SendPing_ok pb p msg reqId remoteNodeId bin sign payload hbin hsign hpayload]
  · intro msg req md bin sign signedPayload hdec hmd hbin hsign hpayload
    rw [handleIncomingRequest_ok pb p msg req md bin sign signedPayload hdec hmd hbin hsign
      hpayload]

/-- C4 for node A's ping to node B: the signer is given the encoding of the unsigned
request, and the transport the encoding of the request signed `52`. -/
theorem signing_contract_witness :
    signedBytes (SendPing wireProto nodeA "hello" [1] "NodeB").calls
        = [wireReq ⟨some ⟨pingReq, [1], false, ""⟩, "hello"⟩]
      ∧ sentMessages (SendPing wireProto nodeA "hello" [1] "NodeB").calls
        = [⟨"NodeB", [1], wireReq ⟨some ⟨pingReq, [1], false, hexEncodeToString [82]⟩, "hello"⟩⟩]
      ∧ signedBytes (handleIncomingRequest wireProto nodeB ⟨wireReq helloRequest, "NodeA"⟩).calls
        = [wireResp ⟨some ⟨pingResp, [1], false, ""⟩, "hello"⟩]
      ∧ sentMessages
          (handleIncomingRequest wireProto nodeB ⟨wireReq helloRequest, "NodeA"⟩).calls
        = [⟨"NodeA", [1],
            wireResp ⟨some ⟨pingResp, [1], false, hexEncodeToString [197]⟩, "hello"⟩⟩] := by
  have h1 := (signing_contract wireProto nodeA).1 "hello" [1] "NodeB"
    (wireReq ⟨some ⟨pingReq, [1], false, ""⟩, "hello"⟩) [82] (wireReq helloRequest)
    rfl rfl rfl
  have h2 := (signing_contract wireProto nodeB).2 ⟨wireReq helloRequest, "NodeA"⟩
    helloRequest ⟨pingReq, [1], false, "52"⟩
    (wireResp ⟨some ⟨pingResp, [1], false, ""⟩, "hello"⟩) [197] (wireResp helloResponse)
    rfl rfl rfl rfl rfl
  rw [h1, h2]
  decide

/-! ## Inbound signatures -/

/-- C5 as stated fails: node B receives a request whose signature does not verify
for the claimed sender and still sends the response; node A, after one registration,
receives a response whose signature does not verify and still starts the sending
goroutines, and the registered channel is sent the response whether the first
goroutine reads the loop variable at once or after the loop has moved on. -/
theorem unverified_inbound_counterexample :
    verifiesReq wireProto nodeB.swarm ⟨wireReq forgedRequest, "NodeA"⟩ forgedRequest = false
      ∧ sentMessages (handleIncomingRequest wireProto nodeB ⟨wireReq forgedRequest, "NodeA"⟩).calls
        = [⟨"NodeA", [1], wireResp helloResponse⟩]
      ∧ verifiesResp wireProto nodeA.swarm ⟨wireResp forgedResponse, "NodeB"⟩ forgedResponse
        = false
      ∧ dispatched (processEvents wireProto nodeA [RegisterCallback (some 1),
          Event.incomingResponses ⟨wireResp forgedResponse, "NodeB"⟩ []]).calls
        = [(none, forgedResponse), (some 1, forgedResponse)]
      ∧ dispatched (processEvents wireProto nodeA [RegisterCallback (some 1),
          Event.incomingResponses ⟨wireResp forgedResponse, "NodeB"⟩ [1]]).calls
        = [(some 1, forgedResponse), (some 1, forgedResponse)] := by
  decide

/-- C5 (amended): the handlers parse an inbound envelope and do not verify it. A
request that decodes to a message with metadata is answered, when both encodings
and the signing succeed, also when its signature does not verify. A response that
decodes to a message with metadata still starts, under every schedule, one sending
goroutine per element of `callbacks`, each with that response and each sending on an
element of `callbacks`, the last of them on the last element, also when its
signature does not verify. -/
theorem inbound_not_verified (pb : Proto) (p : pingProtocolImpl) :
    (∀ (msg : IncomingMessage) (req : PingReqData) (md : Metadata)
        (bin sign signedPayload : Bytes),
      pb.UnmarshalReq msg.Payload = Except.ok req →
      req.Metadata = some md →
      verifiesReq pb p.swarm msg req = false →
      pb.MarshalResp ⟨some ⟨pingResp, md.ReqId, false, ""⟩, req.Ping⟩ = Except.ok bin →
      p.swarm.Sign bin = Except.ok sign →
      pb.MarshalResp ⟨some ⟨pingResp, md.ReqId, false, hexEncodeToString sign⟩, req.Ping⟩
        = Except.ok signedPayload →
      sentMessages (handleIncomingRequest pb p msg).calls
        = [⟨msg.Sender, md.ReqId, signedPayload⟩])
    ∧ (∀ (msg : IncomingMessage) (sched : Schedule) (resp : PingRespData) (md : Metadata),
      pb.UnmarshalResp msg.Payload = Except.ok resp →
      resp.Metadata = some md →
      verifiesResp pb p.swarm msg resp = false →
      (dispatched (handleIncomingResponse pb p msg sched).calls).map Prod.snd
          = p.callbacks.map (fun _ => resp)
        ∧ (∀ d ∈ dispatched (handleIncomingResponse pb p msg sched).calls, d.1 ∈ p.callbacks)
        ∧ (dispatched (handleIncomingResponse pb p msg sched).calls).getLast?
          = p.callbacks.getLast?.map (fun c => (c, resp))) := by
  constructor
  · intro msg req md bin sign signedPayload hdec hmd _ hbin hsign hpayload
    rw [handleIncomingRequest_ok pb p msg req md bin sign signedPayload hdec hmd hbin hsign
      hpayload]
    simp [sentMessages]
  · intro msg sched resp md hdec hmd _
    rw [handleIncomingResponse_ok pb p msg sched resp md hdec hmd]
    exact ⟨notifyClients_responses p.callbacks sched resp,
      notifyClients_channels p.callbacks sched resp,
      notifyClients_last p.callbacks sched resp⟩

/-- C5 (amended) at node B for the forged request and at node A, with channel 1
registered, for the forged response under a schedule that delays the first
goroutine: two goroutines, the last one sending on channel 1. -/
theorem inbound_not_verified_witness :
    sentMessages (handleIncomingRequest wireProto nodeB ⟨wireReq forgedRequest, "NodeA"⟩).calls
        = [⟨"NodeA", [1], wireResp helloResponse⟩]
      ∧ ((dispatched (handleIncomingResponse wireProto ⟨nodeA.swarm, [none, some 1]⟩
            ⟨wireResp forgedResponse, "NodeB"⟩ [1]).calls).map Prod.snd
          = [forgedResponse, forgedResponse]
        ∧ (∀ d ∈ dispatched (handleIncomingResponse wireProto ⟨nodeA.swarm, [none, some 1]⟩
            ⟨wireResp forgedResponse, "NodeB"⟩ [1]).calls, d.1 ∈ [none, some 1])
        ∧ (dispatched (handleIncomingResponse wireProto ⟨nodeA.swarm, [none, some 1]⟩
            ⟨wireResp forgedResponse, "NodeB"⟩ [1]).calls).getLast?
          = some (some 1, forgedResponse)) :=
  ⟨(inbound_not_verified wireProto nodeB).1 ⟨wireReq forgedRequest, "NodeA"⟩ forgedRequest
      ⟨pingReq, [1], false, "00"⟩ (wireResp ⟨some ⟨pingResp, [1], false, ""⟩, "hello"⟩) [197]
      (wireResp helloResponse) rfl rfl rfl rfl rfl rfl,
   (inbound_not_verified wireProto ⟨nodeA.swarm, [none, some 1]⟩).2
      ⟨wireResp forgedResponse, "NodeB"⟩ [1] forgedResponse ⟨pingResp, [1], false, "00"⟩
      rfl rfl rfl⟩

/-! ## Decode failures and messages without metadata -/

/-- C7 (decode failures are dropped): when the payload fails to decode,
`handleIncomingRequest` and `handleIncomingResponse` return with an empty trace
(nothing is handed to the transport, no delivery is dispatched) and leave `callbacks`
as it was. -/
theorem decode_failure_dropped (pb : Proto) (p : pingProtocolImpl) :
    (∀ (msg : IncomingMessage) (err : Error),
      pb.UnmarshalReq msg.Payload = Except.error err →
      (handleIncomingRequest pb p msg).calls = []
        ∧ sentMessages (handleIncomingRequest pb p msg).calls = []
        ∧ (handleIncomingRequest pb p msg).state.callbacks = p.callbacks
        ∧ (handleIncomingRequest pb p msg).result = Exit.returned)
    ∧ (∀ (msg : IncomingMessage) (sched : Schedule) (err : Error),
      pb.UnmarshalResp msg.Payload = Except.error err →
      (handleIncomingResponse pb p msg sched).calls = []
        ∧ dispatched (handleIncomingResponse pb p msg sched).calls = []
        ∧ (handleIncomingResponse pb p msg sched).state.callbacks = p.callbacks
        ∧ (handleIncomingResponse pb p msg sched).result = Exit.returned) := by
  constructor
  · intro msg err h
    simp [handleIncomingRequest, h, sentMessages]
  · intro msg sched err h
    simp [handleIncomingResponse, h, dispatched]

/-- C7 for a truncated payload at node A, which has one subscriber registered. -/
theorem decode_failure_dropped_witness :
    wireProto.UnmarshalReq [1, 19, 47] = Except.error "unexpected EOF"
      ∧ sentMessages (handleIncomingRequest wireProto ⟨nodeA.swarm, [none, some 1]⟩
          ⟨[1, 19, 47], "NodeB"⟩).calls = []
      ∧ dispatched (handleIncomingResponse wireProto ⟨nodeA.swarm, [none, some 1]⟩
          ⟨[1, 19, 47], "NodeB"⟩ []).calls = []
      ∧ (handleIncomingResponse wireProto ⟨nodeA.swarm, [none, some 1]⟩
          ⟨[1, 19, 47], "NodeB"⟩ []).state.callbacks = [none, some 1] :=
  have h := decode_failure_dropped wireProto ⟨nodeA.swarm, [none, some 1]⟩
  ⟨rfl, (h.1 ⟨[1, 19, 47], "NodeB"⟩ "unexpected EOF" rfl).2.1,
    (h.2 ⟨[1, 19, 47], "NodeB"⟩ [] "unexpected EOF" rfl).2.1,
    (h.2 ⟨[1, 19, 47], "NodeB"⟩ [] "unexpected EOF" rfl).2.2.1⟩

/-- C8 fails on the code: a payload that decodes to a message without metadata makes
`handleIncomingRequest` panic at `req.Metadata.ReqId` and `handleIncomingResponse`
panic at `resp.Metadata.ReqId`; nothing is sent or dispatched, and the loop that
called the handler ends. -/
theorem nil_metadata_panics (pb : Proto) (p : pingProtocolImpl) :
    (∀ (msg : IncomingMessage) (req : PingReqData),
      pb.UnmarshalReq msg.Payload = Except.ok req →
      req.Metadata = none →
      (handleIncomingRequest pb p msg).result = Exit.panicked
        ∧ (processEvents pb p [Event.incomingRequests msg]).result = Exit.panicked)
    ∧ (∀ (msg : IncomingMessage) (sched : Schedule) (resp : PingRespData),
      pb.UnmarshalResp msg.Payload = Except.ok resp →
      resp.Metadata = none →
      (handleIncomingResponse pb p msg sched).result = Exit.panicked
        ∧ (processEvents pb p [Event.incomingResponses msg sched]).result = Exit.panicked) := by
  constructor
  · intro msg req hdec hmd
    simp [processEvents, processEvent, handleIncomingRequest, hdec, hmd]
  · intro msg sched resp hdec hmd
    simp [processEvents, processEvent, handleIncomingResponse, hdec, hmd]

/-- C8 at the empty payload, which decodes to the message with every field absent. -/
theorem nil_metadata_panics_witness :
    wireProto.UnmarshalReq [] = Except.ok ⟨none, ""⟩
      ∧ (handleIncomingRequest wireProto nodeB ⟨[], "NodeA"⟩).result = Exit.panicked
      ∧ wireProto.UnmarshalResp [] = Except.ok ⟨none, ""⟩
      ∧ (handleIncomingResponse wireProto nodeA ⟨[], "NodeB"⟩ []).result = Exit.panicked :=
  ⟨rfl, ((nil_metadata_panics wireProto nodeB).1 ⟨[], "NodeA"⟩ ⟨none, ""⟩ rfl rfl).1,
    rfl, ((nil_metadata_panics wireProto nodeA).2 ⟨[], "NodeB"⟩ [] ⟨none, ""⟩ rfl rfl).1⟩

/-! ## The subscriber collection -/

/-- C9 fails on the code: the state `NewPingProtocol` constructs holds a `callbacks`
slice of length one, whose element is the nil channel, and a response processed
before any registration starts, under every schedule, one goroutine, sending on that
nil channel. -/
theorem NewPingProtocol_callbacks (s : Swarm) (sched : Schedule) :
    (NewPingProtocol s).state.callbacks = [none]
      ∧ (NewPingProtocol s).state.callbacks.length = 1
      ∧ dispatched (processEvents wireProto (NewPingProtocol (testSwarm "NodeA" ["NodeB"])).state
          [Event.incomingResponses ⟨wireResp helloResponse, "NodeB"⟩ sched]).calls
        = [(none, helloResponse)] := by
  refine ⟨rfl, rfl, ?_⟩
  rw [processEvents_cons]
  simp only [processEvent, handleIncomingResponse_ok wireProto _
    ⟨wireResp helloResponse, "NodeB"⟩ sched helloResponse ⟨pingResp, [1], false, "c5"⟩ rfl rfl]
  simp [NewPingProtocol, notifyClients, dispatched, processEvents]

/-- C6 fails on the code: from the state `NewPingProtocol` creates, after the
registrations of the channels 1 and 2, node B's response starts three goroutines
under every schedule. When each reads the loop variable at once, the first sends on
the nil channel and the others on the channels 1 and 2; when all three read it after
the loop has ended, all three send on channel 2 and channel 1 gets no copy. A
response that decodes to a message without metadata is dispatched to nobody, the
loop ending in a panic. Registered after the response, channel 3 gets no delivery. -/
theorem fan_out_from_new_state :
    dispatched (processEvents wireProto nodeA
        [RegisterCallback (some 1), RegisterCallback (some 2),
          Event.incomingResponses ⟨wireResp helloResponse, "NodeB"⟩ [],
          RegisterCallback (some 3)]).calls
        = [(none, helloResponse), (some 1, helloResponse), (some 2, helloResponse)]
      ∧ dispatched (processEvents wireProto nodeA
        [RegisterCallback (some 1), RegisterCallback (some 2),
          Event.incomingResponses ⟨wireResp helloResponse, "NodeB"⟩ [2, 2, 2],
          RegisterCallback (some 3)]).calls
        = [(some 2, helloResponse), (some 2, helloResponse), (some 2, helloResponse)]
      ∧ (∀ sched : Schedule, (dispatched (processEvents wireProto nodeA
        [RegisterCallback (some 1), RegisterCallback (some 2),
          Event.incomingResponses ⟨wireResp helloResponse, "NodeB"⟩ sched]).calls).length = 3)
      ∧ dispatched (processEvents wireProto nodeA
        [RegisterCallback (some 1), RegisterCallback (some 2),
          Event.incomingResponses ⟨[], "NodeB"⟩ []]).calls = []
      ∧ (processEvents wireProto nodeA
        [RegisterCallback (some 1), RegisterCallback (some 2),
          Event.incomingResponses ⟨[], "NodeB"⟩ []]).result = Exit.panicked := by
  refine ⟨by decide, by decide, ?_, by decide, by decide⟩
  intro sched
  have h := congrArg List.length (processEvents_fan_out_count wireProto
    ⟨wireResp helloResponse, "NodeB"⟩ helloResponse ⟨pingResp, [1], false, "c5"⟩ rfl rfl
    sched [some 1, some 2] nodeA)
  simpa [nodeA, NewPingProtocol] using h

/-- C10 (append-only subscriber collection): in every state and for every event, the
`callbacks` before the iteration is an initial segment of the `callbacks` after it;
a registration event yields the old `callbacks` followed by the new callback; an
inbound request, an inbound response and a `SendPing` call leave `callbacks` as it
was; and so over any run of the loop. -/
theorem callbacks_append_only (pb : Proto) (p : pingProtocolImpl) :
    (∀ ev : Event, p.callbacks <+: (processEvent pb p ev).state.callbacks)
      ∧ (∀ c : Chan,
          (processEvent pb p (RegisterCallback c)).state.callbacks = p.callbacks ++ [c])
      ∧ (∀ r : IncomingMessage,
          (processEvent pb p (Event.incomingRequests r)).state.callbacks = p.callbacks)
      ∧ (∀ (r : IncomingMessage) (sched : Schedule),
          (processEvent pb p (Event.incomingResponses r sched)).state.callbacks = p.callbacks)
      ∧ (∀ (msg : String) (reqId : Bytes) (remoteNodeId : String),
          (SendPing pb p msg reqId remoteNodeId).state.callbacks = p.callbacks)
      ∧ (∀ evs : List Event, p.callbacks <+: (processEvents pb p evs).state.callbacks) := by
  refine ⟨?_, ?_, ?_, ?_, ?_, ?_⟩
  · intro ev
    rw [processEvent_callbacks]
    cases ev with
    | incomingRequests r => exact List.prefix_refl _
    | incomingResponses r sched => exact List.prefix_refl _
    | callbacksRegReq c => exact List.prefix_append _ _
  · intro c
    rfl
  · intro r
    rw [processEvent_callbacks]
  · intro r sched
    rw [processEvent_callbacks]
  · intro msg reqId remoteNodeId
    rw [SendPing_state]
  · intro evs
    induction evs generalizing p with
    | nil => exact List.prefix_refl _
    | cons ev evs ih =>
      have hstep : p.callbacks <+: (processEvent pb p ev).state.callbacks := by
        rw [processEvent_callbacks]
        cases ev with
        | incomingRequests r => exact List.prefix_refl _
        | incomingResponses r sched => exact List.prefix_refl _
        | callbacksRegReq c => exact List.prefix_append _ _
      rw [processEvents_cons]
      split
      · exact hstep
      · exact List.IsPrefix.trans hstep (ih (processEvent pb p ev).state)

end PingProtocol
